import Mathlib

/-!
GPS-SDR receiver bootstrap: configuration constants and `init.cpp`.

A shallow embedding of `src/includes/config.h` (the configuration constants) and of
`src/main/init.cpp` (`usage`, `echo_options`, `Parse_Arguments`, `Hardware_Init`,
`Object_Init`, `Pipes_Init`), followed by the properties established about them.

Conventions of the embedding.
* `int32` values are `Int`; every value that occurs is a small constant, a loop counter
  below `MAX_CHANNELS`, or the result of `atoi`, which is wrapped to 32 bits explicitly.
* The process-wide option struct `gopt` is passed and returned explicitly.
* A function that may leave through `exit`, or through a null-pointer dereference,
  returns an `Outcome`.
* A value-returning function whose body ends without a `return` statement
  (`Object_Init`) returns an `InitOutcome`, which records that control flows off the end
  of the function (undefined behaviour) and the globals at that point.
* Text written to `stdout` is kept as a list of lines where `gopt.verbose` guards it
  (`Hardware_Init`, `Pipes_Init`); the text `usage` and `echo_options` write to `stderr`
  is not part of the model.
-/

namespace GpsSdr

/-! ## `config.h` -/

/-- Number of channel objects. -/
def MAX_CHANNELS : Int := 12
/-- Number of CPU cores: 1 for a single core, 2 for a dual core system. -/
def CPU_CORES : Int := 2
/-- The macro `(MAX_CHANNELS/CPU_CORES)`: C integer division (truncating). -/
def CORR_PER_CPU : Int := Int.tdiv MAX_CHANNELS CPU_CORES
/-- Packets of roughly 1ms data. -/
def MEASUREMENT_INT : Int := 100
/-- Number of measurement intervals (plus-minus) used to calculate ICP. -/
def ICP_TICS : Int := 5
/-- The macro `(1000/MEASUREMENT_INT)`: C integer division (truncating). -/
def TICS_PER_SECOND : Int := Int.tdiv 1000 MEASUREMENT_INT

def FIFO_PRIORITY : Int := 99
def CORR_PRIORITY : Int := 98
def EPHEM_PRIORITY : Int := 97
def PVT_PRIORITY : Int := 96
def TRAK_PRIORITY : Int := 95
def ACQ_PRIORITY : Int := 70
def TELEM_PRIORITY : Int := 92
def KEY_PRIORITY : Int := 93

/-! ## `Hardware_Init` -/

/-- Results of the seven CPU capability probes `CPU_MMX()` ... `CPU_SSE42()`. The probes
are declared outside the two source files; each result is used only as a truth value. -/
structure CpuProbes where
  mmx : Bool
  sse : Bool
  sse2 : Bool
  sse3 : Bool
  ssse3 : Bool
  sse41 : Bool
  sse42 : Bool
deriving DecidableEq, Repr

/-- The statement `if(gopt.verbose) printf(line)`. -/
def verbosePrint (verbose : Bool) (line : String) (out : List String) : List String :=
  if verbose then out ++ [line] else out

/-- Function `Hardware_Init`: the lines printed to `stdout` and the `int32` returned
(`return(false)` is the value 0). -/
def Hardware_Init (cpu : CpuProbes) (verbose : Bool) : List String × Int :=
  let out : List String := []
  if cpu.mmx then
    let out := verbosePrint verbose "Detected MMX\n" out
    if cpu.sse then
      let out := verbosePrint verbose "Detected SSE\n" out
      if cpu.sse2 then
        let out := verbosePrint verbose "Detected SSE2\n" out
        let out := if cpu.sse3 then verbosePrint verbose "Detected SSE3\n" out else out
        let out := if cpu.ssse3 then verbosePrint verbose "Detected SSSE3\n" out else out
        let out := if cpu.sse41 then verbosePrint verbose "Detected SSE4.1\n" out else out
        let out := if cpu.sse42 then verbosePrint verbose "Detected SSE4.2\n" out else out
        (out, 1)
      else (out, 0)
    else (out, 0)
  else (out, 0)

/-! ## `Pipes_Init` -/

/-- The fourteen pipe arrays created by `Pipes_Init`, in the order of the `pipe` calls. -/
inductive Pipe where
  | SVS_2_COR_P | CHN_2_EPH_P | PVT_2_TLM_P | SVS_2_TLM_P | EKF_2_TLM_P | CMD_2_TLM_P
  | ACQ_2_SVS_P | EKF_2_SVS_P | PVT_2_SVS_P | TLM_2_CMD_P | SVS_2_ACQ_P | COR_2_ACQ_P
  | ISRP_2_PVT_P | ISRM_2_PVT_P
deriving DecidableEq, Repr

/-- The two indices `READ` and `WRITE` of a pipe array. -/
inductive PipeEnd where
  | READ | WRITE
deriving DecidableEq, Repr

/-- The value of `O_NONBLOCK` (system header, Linux: octal 04000). -/
def O_NONBLOCK : Nat := 2048

/-- File status flags of every pipe end: `none` while the pipe has not been created. -/
abbrev FdTable := Pipe → PipeEnd → Option Nat

/-- No pipe created yet. -/
def FdTable.empty : FdTable := fun _ _ => none

/-- The call `pipe((int *)p)`, taken to succeed (the code ignores its result): both ends
exist afterwards, with no status flag set. -/
def pipe (p : Pipe) (t : FdTable) : FdTable :=
  fun q e => if q = p then some 0 else t q e

/-- The call `fcntl(p[e], F_SETFL, arg)`: replaces the status flags of an existing
descriptor; fails, changing nothing, on a descriptor that does not exist. -/
def fcntl_SETFL (p : Pipe) (e : PipeEnd) (arg : Nat) (t : FdTable) : FdTable :=
  fun q e' => if q = p ∧ e' = e then (t q e').map (fun _ => arg) else t q e'

/-- A pipe end exists and has `O_NONBLOCK` among its status flags. -/
def isNonBlocking (t : FdTable) (p : Pipe) (e : PipeEnd) : Bool :=
  match t p e with
  | some flags => flags &&& O_NONBLOCK == O_NONBLOCK
  | none => false

/-- Function `Pipes_Init`: the descriptor table afterwards, the lines printed, and the result. -/
def Pipes_Init (verbose : Bool) (t : FdTable) : FdTable × List String × Int :=
  /- Create all of the pipes -/
  let t := pipe .SVS_2_COR_P t
  let t := pipe .CHN_2_EPH_P t
  let t := pipe .PVT_2_TLM_P t
  let t := pipe .SVS_2_TLM_P t
  let t := pipe .EKF_2_TLM_P t
  let t := pipe .CMD_2_TLM_P t
  let t := pipe .ACQ_2_SVS_P t
  let t := pipe .EKF_2_SVS_P t
  let t := pipe .PVT_2_SVS_P t
  let t := pipe .TLM_2_CMD_P t
  let t := pipe .SVS_2_ACQ_P t
  let t := pipe .COR_2_ACQ_P t
  let t := pipe .ISRP_2_PVT_P t
  let t := pipe .ISRM_2_PVT_P t
  /- Setup some of the non-blocking pipes -/
  let t := fcntl_SETFL .COR_2_ACQ_P .WRITE O_NONBLOCK t
  let t := fcntl_SETFL .EKF_2_SVS_P .WRITE O_NONBLOCK t
  let t := fcntl_SETFL .SVS_2_TLM_P .WRITE O_NONBLOCK t
  let t := fcntl_SETFL .PVT_2_SVS_P .WRITE O_NONBLOCK t
  let t := fcntl_SETFL .EKF_2_SVS_P .READ O_NONBLOCK t
  let t := fcntl_SETFL .SVS_2_COR_P .READ O_NONBLOCK t
  let t := fcntl_SETFL .SVS_2_TLM_P .READ O_NONBLOCK t
  let t := fcntl_SETFL .PVT_2_TLM_P .READ O_NONBLOCK t
  let t := fcntl_SETFL .SVS_2_TLM_P .READ O_NONBLOCK t
  let t := fcntl_SETFL .EKF_2_TLM_P .READ O_NONBLOCK t
  let t := fcntl_SETFL .CMD_2_TLM_P .READ O_NONBLOCK t
  (t, verbosePrint verbose "Cleared Pipes Init\n" [], 1)

/-! ## `Object_Init` -/

/-- A channel object, as far as `init.cpp` determines it: the argument its constructor
`Channel(lcv)` received. The class itself is declared in `channel.h`. -/
structure Channel where
  chan : Int
deriving DecidableEq, Repr

/-- The global object pointers assigned by `Object_Init`. A singleton pointer is `true`
once its object has been allocated; `pChannels` is the pool, `none` being a null slot. -/
structure Objects where
  pKeyboard : Bool
  pAcquisition : Bool
  pEphemeris : Bool
  pFIFO : Bool
  pSV_Select : Bool
  pChannels : List (Option Channel)
  pCorrelator : Bool
  pTelemetry : Bool
  pCommando : Bool
  pPVT : Bool
deriving DecidableEq, Repr

/-- The globals before `Object_Init`: all pointers null, `pChannels` an array of
`MAX_CHANNELS` slots. -/
def Objects.initial : Objects :=
  { pKeyboard := false, pAcquisition := false, pEphemeris := false, pFIFO := false,
    pSV_Select := false, pChannels := List.replicate MAX_CHANNELS.toNat none,
    pCorrelator := false, pTelemetry := false, pCommando := false, pPVT := false }

/-- The loop `for(lcv = 0; lcv < n; lcv++) pChannels[lcv] = new Channel(lcv);`. -/
def channelLoop (n : Nat) (pool : List (Option Channel)) : List (Option Channel) :=
  (List.range n).foldl (fun pool lcv => pool.set lcv (some ⟨(lcv : Int)⟩)) pool

/-- How a call of an `int32` initialisation function ends: it executes a `return`
statement, or control reaches the closing brace of the function without one. The latter
is undefined behaviour for a value-returning function; `globals` is the state of the
globals when it happens. -/
inductive InitOutcome where
  | returned (globals : Objects) (value : Int)
  | flowsOffEnd (globals : Objects)
deriving DecidableEq, Repr

/-- Function `Object_Init`, allocation taken to succeed. The call to `gettimeofday` and
the unused locals are left out. The function is declared `int32`, and its only
`return(1);` lies in the block that is commented out, so after `pPVT = new PVT();`
control flows off the end. -/
def Object_Init (g : Objects) : InitOutcome :=
  let g := { g with pKeyboard := true }
  let g := { g with pAcquisition := true }
  let g := { g with pEphemeris := true }
  let g := { g with pFIFO := true }
  let g := { g with pSV_Select := true }
  let g := { g with pChannels := channelLoop MAX_CHANNELS.toNat g.pChannels }
  let g := { g with pCorrelator := true }
  let g := { g with pTelemetry := true }
  let g := { g with pCommando := true }
  let g := { g with pPVT := true }
  .flowsOffEnd g

/-! ## `Parse_Arguments`, `usage` and `echo_options` -/

/-- The global option struct `gopt`, with the fields `init.cpp` assigns. Its declaration
is outside the two source files; the numeric fields are taken to be `int32` and the file
names to be buffers large enough for the strings copied into them. -/
structure Options where
  verbose : Int
  realtime : Int
  post_process : Int
  ocean : Int
  log_channel : Int
  log_nav : Int
  log_decimate : Int
  google_earth : Int
  ncurses : Int
  gui : Int
  serial : Int
  doppler_min : Int
  doppler_max : Int
  corr_sleep : Int
  startup : Int
  usrp_internal : Int
  filename_direct : String
  filename_reflected : String
deriving DecidableEq, Repr

/-- Which function called `exit`. -/
inductive ExitSite where
  | usage | echo_options
deriving DecidableEq, Repr

/-- How a call ends: it returns (with the value of `gopt`), the process exits, or the
code reads through a null pointer (undefined behaviour; in practice a segmentation
fault). -/
inductive Outcome where
  | returned (gopt : Options)
  | exited (site : ExitSite) (status : Int)
  | nullDeref
deriving DecidableEq, Repr

/-- Function `usage`: prints the help text to `stderr`, then `exit(1)`. -/
def usage : Outcome := .exited .usage 1

/-- Function `echo_options`. `fopen_ok name` tells whether `fopen(name, "r")` yields a non-null
stream. -/
def echo_options (fopen_ok : String → Bool) (gopt : Options) : Outcome :=
  if gopt.post_process ≠ 0 ∧ fopen_ok gopt.filename_direct = false then
    .exited .echo_options 1
  else if gopt.ocean ≠ 0 then
    if fopen_ok gopt.filename_direct = false then .exited .echo_options 1
    else if fopen_ok gopt.filename_reflected = false then .exited .echo_options 1
    else .returned gopt
  else .returned gopt

/-- C `isdigit` on a character: `'0'` to `'9'`. -/
def isdigit (c : Char) : Bool := decide (48 ≤ c.toNat) && decide (c.toNat ≤ 57)

/-- C `isspace` in the default locale: space and the control characters 9 to 13. -/
def isspace (c : Char) : Bool :=
  decide (c.toNat = 32) || (decide (9 ≤ c.toNat) && decide (c.toNat ≤ 13))

/-- The test `isdigit(s[0])`: the first character of an empty C string is the
terminating NUL, which is not a digit. -/
def digitInitial (s : String) : Bool :=
  match s.data with
  | c :: _ => isdigit c
  | [] => false

/-- Value of the longest run of decimal digits at the start of `cs`, continuing `acc`. -/
def digitsValue : List Char → Nat → Nat
  | [], acc => acc
  | c :: cs, acc => if isdigit c then digitsValue cs (10 * acc + (c.toNat - 48)) else acc

/-- Drops leading white space. -/
def skipSpace : List Char → List Char
  | [] => []
  | c :: cs => if isspace c then skipSpace cs else c :: cs

/-- Conversion of a 64-bit `long` to `int32`: two's-complement truncation. -/
def wrap32 (x : Int) : Int := (x + 2 ^ 31) % 2 ^ 32 - 2 ^ 31

/-- Library call `strtol(s, NULL, 10)` with a 64-bit `long`: white space, an optional sign, digits;
an out-of-range value is clamped. -/
def strtol10 (cs : List Char) : Int :=
  match skipSpace cs with
  | [] => 0
  | c :: rest =>
    if c.toNat = 45 then max (-(digitsValue rest 0 : Int)) (-(2 ^ 63))
    else if c.toNat = 43 then min (digitsValue rest 0 : Int) (2 ^ 63 - 1)
    else min (digitsValue (c :: rest) 0 : Int) (2 ^ 63 - 1)

/-- C library `atoi`, as the GNU C library defines it: `(int) strtol(s, NULL, 10)`.
The C standard fixes the result only when the value fits an `int`. -/
def atoi (s : String) : Int := wrap32 (strtol10 s.data)

/-- The option values `Parse_Arguments` sets before its loop. `MAX_DOPPLER_STRONG` is
defined outside the two source files and is a parameter. -/
def defaultOptions (MAX_DOPPLER_STRONG : Int) : Options :=
  { verbose := 0, realtime := 1, post_process := 0, ocean := 0, log_channel := 0,
    log_nav := 0, log_decimate := 1, google_earth := 0, ncurses := 1, gui := 0,
    serial := 0, doppler_min := -MAX_DOPPLER_STRONG, doppler_max := MAX_DOPPLER_STRONG,
    corr_sleep := 500, startup := 0, usrp_internal := 0,
    filename_direct := "data.bda", filename_reflected := "rdata.bda" }

/-- The loop `for(lcv = 1; lcv < argc; lcv++)` of `Parse_Arguments`. The list is
`argv[lcv], ..., argv[argc-1]`; `argv[argc]` is the null pointer, so reading
`argv[lcv+1][0]` when the list has no second element dereferences null. The tests
`argc < lcv+2` and `argc < lcv+3` say that fewer than one, respectively two, elements
follow `argv[lcv]`. `returned` means the loop ran to its end. -/
def argLoop : List String → Options → Outcome
  | [], gopt => .returned gopt
  | arg :: rest, gopt =>
    if arg = "-p" then
      let gopt := { gopt with post_process := 1, realtime := 0, ocean := 0, corr_sleep := 100 }
      match rest with
      | [] => usage
      | f :: rest => argLoop rest { gopt with filename_direct := f }
    else if arg = "-o" then
      let gopt := { gopt with post_process := 0, realtime := 0, ocean := 1 }
      match rest with
      | f1 :: f2 :: rest =>
        argLoop rest { gopt with filename_direct := f1, filename_reflected := f2 }
      | _ => usage
    else if arg = "-v" then argLoop rest { gopt with verbose := 1 }
    else if arg = "-d" then
      match rest with
      | [] => .nullDeref
      | n :: rest =>
        if digitInitial n then argLoop rest { gopt with log_decimate := atoi n }
        else usage
    else if arg = "-c" then argLoop rest { gopt with log_channel := 1 }
    else if arg = "-l" then argLoop rest { gopt with log_nav := 1 }
    else if arg = "-g" then argLoop rest { gopt with google_earth := 1 }
    else if arg = "-n" then argLoop rest { gopt with ncurses := 0 }
    else if arg = "-w" then argLoop rest { gopt with startup := 1 }
    else if arg = "-gui" then argLoop rest { gopt with gui := 1, serial := 0, ncurses := 0 }
    else if arg = "-ser" then
      argLoop rest { gopt with serial := 1, gui := 0, ncurses := 0, log_decimate := 10 }
    else if arg = "-u" then argLoop rest { gopt with usrp_internal := 1 }
    else usage

/-- Function `Parse_Arguments(argc, argv)` with `argc = argv.length`: defaults, the loop over
`argv[1..]`, then `echo_options`. -/
def Parse_Arguments (MAX_DOPPLER_STRONG : Int) (fopen_ok : String → Bool)
    (argv : List String) : Outcome :=
  match argLoop (argv.drop 1) (defaultOptions MAX_DOPPLER_STRONG) with
  | .returned gopt => echo_options fopen_ok gopt
  | .exited site status => .exited site status
  | .nullDeref => .nullDeref

/-! ### The command-line grammar -/

/-- One unit of a well-formed command line: a flag together with its operands. -/
inductive Token where
  | p (filename : String)
  | o (filename1 filename2 : String)
  | v
  | d (number : String)
  | c | l | g | n | w | gui | ser | u
deriving DecidableEq, Repr

/-- The arguments a token is written as. -/
def Token.text : Token → List String
  | .p f => ["-p", f]
  | .o f1 f2 => ["-o", f1, f2]
  | .v => ["-v"]
  | .d num => ["-d", num]
  | .c => ["-c"]
  | .l => ["-l"]
  | .g => ["-g"]
  | .n => ["-n"]
  | .w => ["-w"]
  | .gui => ["-gui"]
  | .ser => ["-ser"]
  | .u => ["-u"]

/-- The operand of `-d` starts with a digit; file names are arbitrary. -/
def Token.valid : Token → Bool
  | .d num => digitInitial num
  | _ => true

/-- The arguments a token sequence is written as. -/
def render : List Token → List String
  | [] => []
  | t :: ts => t.text ++ render ts

/-- Every argument is a recognised flag or an operand of the flag before it: one file
name after `-p`, two after `-o`, one digit-initial number after `-d`. -/
def WellFormed (args : List String) : Prop :=
  ∃ ts : List Token, (∀ t ∈ ts, t.valid = true) ∧ args = render ts

/-- What one token does to `gopt`; `argLoop_text` shows the loop does exactly this. -/
def Token.effect (t : Token) (gopt : Options) : Options :=
  match t with
  | .p f => { gopt with post_process := 1, realtime := 0, ocean := 0, corr_sleep := 100,
                        filename_direct := f }
  | .o f1 f2 => { gopt with post_process := 0, realtime := 0, ocean := 1,
                            filename_direct := f1, filename_reflected := f2 }
  | .v => { gopt with verbose := 1 }
  | .d num => { gopt with log_decimate := atoi num }
  | .c => { gopt with log_channel := 1 }
  | .l => { gopt with log_nav := 1 }
  | .g => { gopt with google_earth := 1 }
  | .n => { gopt with ncurses := 0 }
  | .w => { gopt with startup := 1 }
  | .gui => { gopt with gui := 1, serial := 0, ncurses := 0 }
  | .ser => { gopt with serial := 1, gui := 0, ncurses := 0, log_decimate := 10 }
  | .u => { gopt with usrp_internal := 1 }

/-- The effects of a token sequence, left to right. -/
def effects (ts : List Token) (gopt : Options) : Options :=
  ts.foldl (fun g t => t.effect g) gopt

end GpsSdr

namespace GpsSdr

/-! ## Configuration constants -/

/-- C1 (as stated, refuted): the priorities are not strictly decreasing in the order
sample ingestion, correlation, ephemeris, PVT, tracking, acquisition, telemetry,
keyboard: acquisition (70) is below telemetry (92), which is below keyboard (93). -/
theorem priorities_not_decreasing_in_spec_order :
    ¬ (FIFO_PRIORITY > CORR_PRIORITY ∧ CORR_PRIORITY > EPHEM_PRIORITY ∧
       EPHEM_PRIORITY > PVT_PRIORITY ∧ PVT_PRIORITY > TRAK_PRIORITY ∧
       TRAK_PRIORITY > ACQ_PRIORITY ∧ ACQ_PRIORITY > TELEM_PRIORITY ∧
       TELEM_PRIORITY > KEY_PRIORITY) := by
  decide

/-- C1 (amended): the configured priorities are strictly decreasing in the order sample
ingestion, correlation, ephemeris decode, PVT, tracking bookkeeping, keyboard, telemetry,
acquisition. -/
theorem priorities_strictly_decreasing :
    FIFO_PRIORITY > CORR_PRIORITY ∧ CORR_PRIORITY > EPHEM_PRIORITY ∧
    EPHEM_PRIORITY > PVT_PRIORITY ∧ PVT_PRIORITY > TRAK_PRIORITY ∧
    TRAK_PRIORITY > KEY_PRIORITY ∧ KEY_PRIORITY > TELEM_PRIORITY ∧
    TELEM_PRIORITY > ACQ_PRIORITY := by
  decide

/-- C7: there is at least one CPU core, `MAX_CHANNELS` is an exact multiple of
`CPU_CORES`, and the integer division defining `CORR_PER_CPU` loses nothing. -/
theorem corr_per_cpu_exact :
    CPU_CORES ≥ 1 ∧ Int.tmod MAX_CHANNELS CPU_CORES = 0 ∧
    CORR_PER_CPU * CPU_CORES = MAX_CHANNELS := by
  decide

/-- C8: `ICP_TICS` does not exceed `TICS_PER_SECOND/2`, both divisions being C integer
divisions on the configured constants. -/
theorem icp_tics_le_half_tics_per_second :
    ICP_TICS ≤ Int.tdiv TICS_PER_SECOND 2 ∧
    TICS_PER_SECOND = Int.tdiv 1000 MEASUREMENT_INT := by
  decide

/-! ## `Hardware_Init` -/

/-- C3: `Hardware_Init` returns 1 exactly when MMX, SSE and SSE2 are all detected and 0
(`false`) otherwise; changing the SSE3, SSSE3, SSE4.1, SSE4.2 probes or the verbose flag
does not change the result. -/
theorem Hardware_Init_result (cpu : CpuProbes) (verbose : Bool) :
    ((Hardware_Init cpu verbose).2 = 1 ↔
      (cpu.mmx = true ∧ cpu.sse = true ∧ cpu.sse2 = true)) ∧
    ((Hardware_Init cpu verbose).2 = 1 ∨ (Hardware_Init cpu verbose).2 = 0) ∧
    (∀ (sse3 ssse3 sse41 sse42 verbose2 : Bool),
      (Hardware_Init { cpu with sse3 := sse3, ssse3 := ssse3, sse41 := sse41,
                                sse42 := sse42 } verbose2).2
        = (Hardware_Init cpu verbose).2) := by
  rcases cpu with ⟨mmx, sse, sse2, s3, ss3, s41, s42⟩
  cases mmx <;> cases sse <;> cases sse2 <;> simp [Hardware_Init]

/-! ## `Pipes_Init` -/

/-- C2 (as stated, refuted): after `Pipes_Init` the write ends of `ACQ_2_SVS_P` and of
`PVT_2_TLM_P` are not `O_NONBLOCK`, so not all four of `COR_2_ACQ_P`, `ACQ_2_SVS_P`,
`PVT_2_SVS_P`, `PVT_2_TLM_P` have a non-blocking write end. -/
theorem Pipes_Init_not_all_producers_nonblocking :
    ¬ (∀ p ∈ [Pipe.COR_2_ACQ_P, Pipe.ACQ_2_SVS_P, Pipe.PVT_2_SVS_P, Pipe.PVT_2_TLM_P],
        isNonBlocking (Pipes_Init false FdTable.empty).1 p .WRITE = true) := by
  decide

/-- C2 (amended): after `Pipes_Init`, whatever the descriptor table was before and
whatever the verbose flag, the write end of a pipe is `O_NONBLOCK` exactly for
`COR_2_ACQ_P`, `EKF_2_SVS_P`, `SVS_2_TLM_P` and `PVT_2_SVS_P`; in particular the write
ends of `ACQ_2_SVS_P` and `PVT_2_TLM_P` are left blocking, and of `PVT_2_TLM_P` only the
read end is `O_NONBLOCK`. -/
theorem Pipes_Init_write_flags (verbose : Bool) (t : FdTable) :
    (∀ p : Pipe, isNonBlocking (Pipes_Init verbose t).1 p .WRITE = true ↔
      (p = .COR_2_ACQ_P ∨ p = .EKF_2_SVS_P ∨ p = .SVS_2_TLM_P ∨ p = .PVT_2_SVS_P)) ∧
    isNonBlocking (Pipes_Init verbose t).1 .PVT_2_TLM_P .READ = true := by
  refine ⟨fun p => ?_, ?_⟩
  · cases p <;> simp [Pipes_Init, pipe, fcntl_SETFL, isNonBlocking, O_NONBLOCK]
  · simp [Pipes_Init, pipe, fcntl_SETFL, isNonBlocking, O_NONBLOCK]

/-! ## `Object_Init` -/

theorem channelLoop_succ (n : Nat) (pool : List (Option Channel)) :
    channelLoop (n + 1) pool = (channelLoop n pool).set n (some ⟨(n : Int)⟩) := by
  simp [channelLoop, List.range_succ, List.foldl_append]

theorem channelLoop_length (n : Nat) (pool : List (Option Channel)) :
    (channelLoop n pool).length = pool.length := by
  induction n with
  | zero => simp [channelLoop]
  | succ n ih => rw [channelLoop_succ, List.length_set, ih]

/-- After `n` iterations the slots below `n` hold the channels built from their index. -/
theorem channelLoop_get (n : Nat) (pool : List (Option Channel)) (hn : n ≤ pool.length)
    (i : Nat) (hi : i < n) : (channelLoop n pool)[i]? = some (some ⟨(i : Int)⟩) := by
  induction n with
  | zero => omega
  | succ n ih =>
    rw [channelLoop_succ]
    by_cases h : i = n
    · subst h
      rw [List.getElem?_set_self]
      rw [channelLoop_length]
      omega
    · have hne : n ≠ i := fun e => h e.symm
      rw [List.getElem?_set_ne hne]
      exact ih (by omega) (by omega)

/-- The body of `Object_Init` ends by flowing off the end, the pool being the result of
the channel loop on the pool it started with. -/
theorem Object_Init_eq (g : Objects) :
    ∃ g2 : Objects, Object_Init g = .flowsOffEnd g2 ∧
      g2.pChannels = channelLoop MAX_CHANNELS.toNat g.pChannels :=
  ⟨_, rfl, rfl⟩

/-- C6: `Object_Init` never executes a `return` statement: every call flows off the end
of the `int32` function, so there is no defined state after the call. At that point the
pool has `MAX_CHANNELS` (= 12) slots, slot `i` holds a channel constructed with identity
`i` for every `0 ≤ i < MAX_CHANNELS`, and the channels of two different slots differ. -/
theorem Object_Init_flows_off_end (g : Objects)
    (hlen : g.pChannels.length = MAX_CHANNELS.toNat) :
    (∀ (g2 : Objects) (value : Int), Object_Init g ≠ .returned g2 value) ∧
    ∃ g2 : Objects, Object_Init g = .flowsOffEnd g2 ∧
      MAX_CHANNELS = 12 ∧
      g2.pChannels.length = MAX_CHANNELS.toNat ∧
      (∀ i : Nat, (i : Int) < MAX_CHANNELS →
        g2.pChannels[i]? = some (some ⟨(i : Int)⟩)) ∧
      (∀ i j : Nat, (i : Int) < MAX_CHANNELS → (j : Int) < MAX_CHANNELS → i ≠ j →
        g2.pChannels[i]? ≠ g2.pChannels[j]?) := by
  obtain ⟨g2, hrun, hpool⟩ := Object_Init_eq g
  have hget : ∀ i : Nat, (i : Int) < MAX_CHANNELS →
      g2.pChannels[i]? = some (some ⟨(i : Int)⟩) := by
    intro i hi
    have hi2 : i < MAX_CHANNELS.toNat := by
      simp only [MAX_CHANNELS] at hi ⊢
      omega
    rw [hpool]
    exact channelLoop_get _ _ (Nat.le_of_eq hlen.symm) i hi2
  refine ⟨?_, g2, hrun, rfl, ?_, hget, ?_⟩
  · intro g3 value h
    rw [hrun] at h
    exact absurd h (by simp)
  · rw [hpool, channelLoop_length, hlen]
  · intro i j hi hj hij
    rw [hget i hi, hget j hj]
    intro h
    apply hij
    simpa using h

/-- C6 at the start-up state, all twelve slots null: the call does not return, and the
pool holds the channels 0 to 11 when control flows off the end. -/
theorem Object_Init_flows_off_end_witness :
    Objects.initial.pChannels.length = MAX_CHANNELS.toNat ∧
    ((∀ (g2 : Objects) (value : Int), Object_Init Objects.initial ≠ .returned g2 value) ∧
    ∃ g2 : Objects, Object_Init Objects.initial = .flowsOffEnd g2 ∧
      MAX_CHANNELS = 12 ∧
      g2.pChannels.length = MAX_CHANNELS.toNat ∧
      (∀ i : Nat, (i : Int) < MAX_CHANNELS →
        g2.pChannels[i]? = some (some ⟨(i : Int)⟩)) ∧
      (∀ i j : Nat, (i : Int) < MAX_CHANNELS → (j : Int) < MAX_CHANNELS → i ≠ j →
        g2.pChannels[i]? ≠ g2.pChannels[j]?)) :=
  ⟨by decide, Object_Init_flows_off_end Objects.initial (by decide)⟩

/-! ## `Parse_Arguments` -/

/-- One iteration of the loop of `Parse_Arguments`. -/
theorem argLoop_cons (arg : String) (rest : List String) (gopt : Options) :
    argLoop (arg :: rest) gopt =
    if arg = "-p" then
      match rest with
      | [] => usage
      | f :: rest =>
        argLoop rest { gopt with post_process := 1, realtime := 0, ocean := 0,
                                 corr_sleep := 100, filename_direct := f }
    else if arg = "-o" then
      match rest with
      | f1 :: f2 :: rest =>
        argLoop rest { gopt with post_process := 0, realtime := 0, ocean := 1,
                                 filename_direct := f1, filename_reflected := f2 }
      | _ => usage
    else if arg = "-v" then argLoop rest { gopt with verbose := 1 }
    else if arg = "-d" then
      match rest with
      | [] => .nullDeref
      | num :: rest =>
        if digitInitial num then argLoop rest { gopt with log_decimate := atoi num }
        else usage
    else if arg = "-c" then argLoop rest { gopt with log_channel := 1 }
    else if arg = "-l" then argLoop rest { gopt with log_nav := 1 }
    else if arg = "-g" then argLoop rest { gopt with google_earth := 1 }
    else if arg = "-n" then argLoop rest { gopt with ncurses := 0 }
    else if arg = "-w" then argLoop rest { gopt with startup := 1 }
    else if arg = "-gui" then argLoop rest { gopt with gui := 1, serial := 0, ncurses := 0 }
    else if arg = "-ser" then
      argLoop rest { gopt with serial := 1, gui := 0, ncurses := 0, log_decimate := 10 }
    else if arg = "-u" then argLoop rest { gopt with usrp_internal := 1 }
    else usage := by
  cases rest with
  | nil => rfl
  | cons a r => cases r <;> rfl

/-- The loop consumes the text of a valid token and applies its effect. -/
theorem argLoop_text (t : Token) (hv : t.valid = true) (rest : List String)
    (gopt : Options) : argLoop (t.text ++ rest) gopt = argLoop rest (t.effect gopt) := by
  cases t <;> simp [Token.text, Token.effect, argLoop_cons]
  case d num =>
    have h : digitInitial num = true := hv
    simp [h]

/-- A `-d` whose operand does not start with a digit sends the loop to `usage`. -/
theorem argLoop_invalid (t : Token) (hv : t.valid = false) (rest : List String)
    (gopt : Options) : argLoop (t.text ++ rest) gopt = usage := by
  cases t <;> simp [Token.valid] at hv
  case d num => simp [Token.text, argLoop_cons, hv]

theorem text_ne_nil (t : Token) : t.text ≠ [] := by
  cases t <;> simp [Token.text]

theorem text_length_pos (t : Token) : 0 < t.text.length := by
  cases t <;> simp [Token.text]

/-- The first argument fixes the token: tokenisation is unique. -/
theorem text_append_inj (t t2 : Token) (r r2 : List String)
    (h : t.text ++ r = t2.text ++ r2) : t = t2 ∧ r = r2 := by
  cases t <;> cases t2 <;> simp_all [Token.text]

/-- An argument list that starts with no valid token. -/
def NoTokenAhead (args : List String) : Prop :=
  ¬ ∃ (t : Token) (rest : List String), t.valid = true ∧ args = t.text ++ rest

theorem wellFormed_nil : WellFormed [] := ⟨[], by simp, rfl⟩

theorem wellFormed_text_append (t : Token) (hv : t.valid = true) (rest : List String) :
    WellFormed (t.text ++ rest) ↔ WellFormed rest := by
  constructor
  · rintro ⟨ts, hts, h⟩
    cases ts with
    | nil =>
      exfalso
      have h2 : t.text = [] := (List.append_eq_nil.mp h).1
      exact text_ne_nil t h2
    | cons t2 ts =>
      have h3 := text_append_inj t t2 rest (render ts) h
      exact ⟨ts, fun x hx => hts x (List.mem_cons_of_mem _ hx), h3.2⟩
  · rintro ⟨ts, hts, h⟩
    refine ⟨t :: ts, ?_, by rw [h]; rfl⟩
    intro x hx
    rcases List.mem_cons.mp hx with rfl | hx
    · exact hv
    · exact hts x hx

theorem not_wellFormed_of_noTokenAhead (arg : String) (rest : List String)
    (h : NoTokenAhead (arg :: rest)) : ¬ WellFormed (arg :: rest) := by
  rintro ⟨ts, hts, hr⟩
  cases ts with
  | nil => simp [render] at hr
  | cons t ts => exact h ⟨t, render ts, hts t (List.mem_cons_self _ _), hr⟩

/-- One iteration either consumes a valid token, or no valid token is ahead and the
iteration ends in `usage`, or the list is the single argument `-d` and the iteration
reads `argv[argc][0]`. -/
theorem argLoop_progress (arg : String) (rest : List String) :
    (∃ (t : Token) (rest2 : List String), t.valid = true ∧ arg :: rest = t.text ++ rest2 ∧
      ∀ gopt, argLoop (arg :: rest) gopt = argLoop rest2 (t.effect gopt)) ∨
    (NoTokenAhead (arg :: rest) ∧ ∀ gopt, argLoop (arg :: rest) gopt = usage) ∨
    (NoTokenAhead (arg :: rest) ∧ arg = "-d" ∧ rest = [] ∧
      ∀ gopt, argLoop (arg :: rest) gopt = .nullDeref) := by
  have simple : ∀ t : Token, t.valid = true → t.text = [arg] →
      (∃ (t : Token) (rest2 : List String), t.valid = true ∧
        arg :: rest = t.text ++ rest2 ∧
        ∀ gopt, argLoop (arg :: rest) gopt = argLoop rest2 (t.effect gopt)) := by
    intro t hv ht
    refine ⟨t, rest, hv, by rw [ht]; rfl, fun gopt => ?_⟩
    have := argLoop_text t hv rest gopt
    rw [ht] at this
    exact this
  by_cases hp : arg = "-p"
  · subst hp
    cases rest with
    | nil =>
      right; left
      refine ⟨?_, fun gopt => by rw [argLoop_cons]; simp⟩
      rintro ⟨t, r, _, h⟩
      cases t <;> simp [Token.text] at h
    | cons f r =>
      left
      exact ⟨.p f, r, rfl, rfl, fun gopt => argLoop_text (.p f) rfl r gopt⟩
  by_cases ho : arg = "-o"
  · subst ho
    rcases rest with _ | ⟨f1, _ | ⟨f2, r⟩⟩
    · right; left
      refine ⟨?_, fun gopt => by rw [argLoop_cons]; simp⟩
      rintro ⟨t, r, _, h⟩
      cases t <;> simp [Token.text] at h
    · right; left
      refine ⟨?_, fun gopt => by rw [argLoop_cons]; simp⟩
      rintro ⟨t, r, _, h⟩
      cases t <;> simp [Token.text] at h
    · left
      exact ⟨.o f1 f2, r, rfl, rfl, fun gopt => argLoop_text (.o f1 f2) rfl r gopt⟩
  by_cases hd : arg = "-d"
  · subst hd
    cases rest with
    | nil =>
      right; right
      refine ⟨?_, rfl, rfl, fun gopt => by rw [argLoop_cons]; simp⟩
      rintro ⟨t, r, _, h⟩
      cases t <;> simp [Token.text] at h
    | cons num r =>
      by_cases hnum : digitInitial num = true
      · left
        exact ⟨.d num, r, hnum, rfl, fun gopt => argLoop_text (.d num) hnum r gopt⟩
      · right; left
        have hf : (Token.d num).valid = false := by simpa [Token.valid] using hnum
        refine ⟨?_, fun gopt => argLoop_invalid (.d num) hf r gopt⟩
        rintro ⟨t, r2, hv, h⟩
        cases t <;> simp [Token.text] at h
        rw [← h.1] at hv
        exact hnum hv
  by_cases hv : arg = "-v"
  · left; exact simple .v rfl (by rw [hv]; rfl)
  by_cases hc : arg = "-c"
  · left; exact simple .c rfl (by rw [hc]; rfl)
  by_cases hl : arg = "-l"
  · left; exact simple .l rfl (by rw [hl]; rfl)
  by_cases hg : arg = "-g"
  · left; exact simple .g rfl (by rw [hg]; rfl)
  by_cases hn : arg = "-n"
  · left; exact simple .n rfl (by rw [hn]; rfl)
  by_cases hw : arg = "-w"
  · left; exact simple .w rfl (by rw [hw]; rfl)
  by_cases hgui : arg = "-gui"
  · left; exact simple .gui rfl (by rw [hgui]; rfl)
  by_cases hser : arg = "-ser"
  · left; exact simple .ser rfl (by rw [hser]; rfl)
  by_cases hu : arg = "-u"
  · left; exact simple .u rfl (by rw [hu]; rfl)
  right; left
  refine ⟨?_, fun gopt => by rw [argLoop_cons]; simp [*]⟩
  rintro ⟨t, r, _, h⟩
  cases t <;> simp [Token.text] at h <;> simp_all

/-- The three ways the loop can end, for every argument list: it runs to its end on a
well-formed list, having applied the effects of its tokens; or the list is not
well-formed and the loop ends in `usage`; or the list is a well-formed list followed by
a last `-d` and the loop dereferences the null pointer `argv[argc]`. -/
theorem argLoop_outcome (args : List String) (gopt : Options) :
    (WellFormed args ∧ ∃ ts : List Token, (∀ t ∈ ts, t.valid = true) ∧ args = render ts ∧
      argLoop args gopt = .returned (effects ts gopt)) ∨
    (¬ WellFormed args ∧ argLoop args gopt = usage) ∨
    (¬ WellFormed args ∧ argLoop args gopt = .nullDeref ∧
      ∃ ts : List Token, (∀ t ∈ ts, t.valid = true) ∧ args = render ts ++ ["-d"]) := by
  generalize hn : args.length = n
  induction n using Nat.strong_induction_on generalizing args gopt with
  | _ n ih =>
    subst hn
    cases args with
    | nil => exact Or.inl ⟨wellFormed_nil, [], by simp, rfl, rfl⟩
    | cons arg rest =>
      rcases argLoop_progress arg rest with
        ⟨t, rest2, hv, heq, hstep⟩ | ⟨hno, hu⟩ | ⟨hno, hd, hr, hnull⟩
      · have hlen : rest2.length < (arg :: rest).length := by
          have h1 := congrArg List.length heq
          have h2 := text_length_pos t
          rw [List.length_append] at h1
          omega
        have hwf := wellFormed_text_append t hv rest2
        have hmem : ∀ ts : List Token, (∀ x ∈ ts, x.valid = true) →
            ∀ x ∈ t :: ts, x.valid = true := by
          intro ts hts x hx
          rcases List.mem_cons.mp hx with rfl | hx
          · exact hv
          · exact hts x hx
        rw [hstep gopt, heq]
        rcases ih rest2.length hlen rest2 (t.effect gopt) rfl with
          ⟨hw, ts, hts, hrender, hret⟩ | ⟨hw, husage⟩ | ⟨hw, hnd, ts, hts, hrender⟩
        · refine Or.inl ⟨hwf.mpr hw, t :: ts, hmem ts hts, by rw [hrender]; rfl, ?_⟩
          rw [hret]
          rfl
        · exact Or.inr (Or.inl ⟨fun h => hw (hwf.mp h), husage⟩)
        · refine Or.inr (Or.inr ⟨fun h => hw (hwf.mp h), hnd, t :: ts, hmem ts hts, ?_⟩)
          rw [hrender]
          simp [render]
      · exact Or.inr (Or.inl ⟨not_wellFormed_of_noTokenAhead arg rest hno, hu gopt⟩)
      · refine Or.inr (Or.inr ⟨not_wellFormed_of_noTokenAhead arg rest hno, hnull gopt,
          [], by simp, ?_⟩)
        rw [hd, hr]
        rfl

/-- When `echo_options` returns, it returns `gopt` unchanged. -/
theorem echo_options_returned (fopen_ok : String → Bool) (gopt o : Options)
    (h : echo_options fopen_ok gopt = .returned o) : o = gopt := by
  unfold echo_options at h
  split at h
  · exact absurd h (by simp)
  · split at h
    · split at h
      · exact absurd h (by simp)
      · split at h
        · exact absurd h (by simp)
        · exact (Outcome.returned.inj h).symm
    · exact (Outcome.returned.inj h).symm

/-- Function `Parse_Arguments` returns only from `echo_options`, after the loop ran to its end. -/
theorem Parse_Arguments_returned (M : Int) (fopen_ok : String → Bool)
    (argv : List String) (o : Options)
    (h : Parse_Arguments M fopen_ok argv = .returned o) :
    argLoop (argv.drop 1) (defaultOptions M) = .returned o := by
  unfold Parse_Arguments at h
  split at h
  next g hg =>
    rw [hg, echo_options_returned fopen_ok g o h]
  next => exact absurd h (by simp)
  next => exact absurd h (by simp)

/-- First half of C4: `Parse_Arguments` returns normally only on a well-formed command
line, and then `gopt` holds the effects of its tokens on the defaults. -/
theorem Parse_Arguments_returns_only_if_wellFormed (M : Int) (fopen_ok : String → Bool)
    (argv : List String) (o : Options)
    (h : Parse_Arguments M fopen_ok argv = .returned o) :
    WellFormed (argv.drop 1) ∧
    ∃ ts : List Token, (∀ t ∈ ts, t.valid = true) ∧ argv.drop 1 = render ts ∧
      o = effects ts (defaultOptions M) := by
  have h1 := Parse_Arguments_returned M fopen_ok argv o h
  rcases argLoop_outcome (argv.drop 1) (defaultOptions M) with
    ⟨hw, ts, hts, hr, hret⟩ | ⟨_, hu⟩ | ⟨_, hnd, _⟩
  · rw [hret] at h1
    exact ⟨hw, ts, hts, hr, (Outcome.returned.inj h1).symm⟩
  · rw [hu] at h1
    exact absurd h1 (by simp [usage])
  · rw [hnd] at h1
    exact absurd h1 (by simp)

/-- Second half of C4, as far as it holds: on a command line that is not well-formed,
`Parse_Arguments` either calls `usage` (exit status 1) or dereferences the null pointer
`argv[argc]`, the latter exactly when a last `-d` follows a well-formed list; either way
`echo_options` is not reached. -/
theorem Parse_Arguments_not_wellFormed (M : Int) (fopen_ok : String → Bool)
    (argv : List String) (h : ¬ WellFormed (argv.drop 1)) :
    Parse_Arguments M fopen_ok argv = .exited .usage 1 ∨
    (Parse_Arguments M fopen_ok argv = .nullDeref ∧
      ∃ ts : List Token, (∀ t ∈ ts, t.valid = true) ∧ argv.drop 1 = render ts ++ ["-d"]) := by
  unfold Parse_Arguments
  rcases argLoop_outcome (argv.drop 1) (defaultOptions M) with
    ⟨hw, _⟩ | ⟨_, hu⟩ | ⟨_, hnd, hts⟩
  · exact absurd hw h
  · left
    rw [hu]
    rfl
  · right
    rw [hnd]
    exact ⟨rfl, hts⟩

/-- C4 at `argv = ["gps-sdr", "-d"]`: the command line is not well-formed (the `-d` has
no number after it), yet `Parse_Arguments` does not call `usage`: it evaluates
`isdigit(argv[2][0])` with `argv[2]` the null pointer that ends `argv`. -/
theorem Parse_Arguments_trailing_d (M : Int) (fopen_ok : String → Bool) :
    ¬ WellFormed (["gps-sdr", "-d"].drop 1) ∧
    Parse_Arguments M fopen_ok ["gps-sdr", "-d"] = .nullDeref ∧
    Parse_Arguments M fopen_ok ["gps-sdr", "-d"] ≠ usage := by
  have h : Parse_Arguments M fopen_ok ["gps-sdr", "-d"] = .nullDeref := by
    simp [Parse_Arguments, argLoop_cons]
  refine ⟨?_, h, by rw [h]; simp [usage]⟩
  rcases argLoop_outcome (["gps-sdr", "-d"].drop 1) (defaultOptions M) with
    ⟨_, _, _, _, hret⟩ | ⟨hw, _⟩ | ⟨hw, _⟩
  · simp [argLoop_cons] at hret
  · exact hw
  · exact hw

/-! ### `log_decimate` -/

theorem effects_append (ts us : List Token) (gopt : Options) :
    effects (ts ++ us) gopt = effects us (effects ts gopt) := by
  simp [effects, List.foldl_append]

/-- Tokens other than `-d` and `-ser` leave `log_decimate` alone. -/
theorem effects_log_decimate (ts : List Token)
    (hq : ∀ t ∈ ts, t ≠ Token.ser ∧ ∀ m, t ≠ Token.d m) (gopt : Options) :
    (effects ts gopt).log_decimate = gopt.log_decimate := by
  induction ts generalizing gopt with
  | nil => rfl
  | cons t ts ih =>
    have h1 := hq t (List.mem_cons_self _ _)
    have h2 : (t.effect gopt).log_decimate = gopt.log_decimate := by
      cases t <;> first | rfl | exact absurd rfl h1.1 | exact absurd rfl (h1.2 _)
    have h3 := ih (fun x hx => hq x (List.mem_cons_of_mem _ hx)) (t.effect gopt)
    show (effects ts (t.effect gopt)).log_decimate = _
    rw [h3, h2]

/-- A digit is neither white space nor a sign. -/
theorem isdigit_not_space_sign (c : Char) (h : isdigit c = true) :
    isspace c = false ∧ c.toNat ≠ 45 ∧ c.toNat ≠ 43 := by
  simp only [isdigit, Bool.and_eq_true, decide_eq_true_eq] at h
  refine ⟨?_, by omega, by omega⟩
  simp only [isspace, Bool.or_eq_false_iff, Bool.and_eq_false_iff, decide_eq_false_iff_not]
  omega

/-- On a digit-initial string whose leading number fits an `int32`, `atoi` yields that
number. -/
theorem atoi_eq_digitsValue (num : String) (hd : digitInitial num = true)
    (hfit : digitsValue num.data 0 < 2 ^ 31) : atoi num = (digitsValue num.data 0 : Int) := by
  unfold digitInitial at hd
  unfold atoi strtol10
  cases hdata : num.data with
  | nil => simp [hdata] at hd
  | cons c cs =>
    rw [hdata] at hd hfit
    have hc : isdigit c = true := hd
    obtain ⟨hs, h45, h43⟩ := isdigit_not_space_sign c hc
    simp only [skipSpace, hs, h45, h43, if_false, Bool.false_eq_true]
    have hv : (digitsValue (c :: cs) 0 : Int) < 2 ^ 31 := by exact_mod_cast hfit
    have h0 : (0 : Int) ≤ (digitsValue (c :: cs) 0 : Int) := Int.ofNat_nonneg _
    generalize (digitsValue (c :: cs) 0 : Int) = v at hv h0
    have hmin : min v (2 ^ 63 - 1) = v := min_eq_left (by norm_num at hv ⊢; omega)
    rw [hmin]
    unfold wrap32
    norm_num at hv ⊢
    omega

/-- C5 (as stated, refuted): `gps-sdr -d 5 -ser` is accepted and contains the flag `-d`
followed by the number 5, which is its last `-d`, yet `log_decimate` ends as 10, not 5. -/
theorem log_decimate_not_always_last_d :
    ["gps-sdr", "-d", "5", "-ser"] = "gps-sdr" :: render ([] ++ Token.d "5" :: [Token.ser]) ∧
    (∃ o : Options,
      Parse_Arguments 7000 (fun _ => true) ["gps-sdr", "-d", "5", "-ser"] = .returned o ∧
      o.log_decimate = 10 ∧ o.log_decimate ≠ (digitsValue "5".data 0 : Int)) := by
  refine ⟨by decide, effects [Token.d "5", Token.ser] (defaultOptions 7000), ?_, ?_, ?_⟩ <;>
    decide

/-- C5 (amended): on every command line `Parse_Arguments` accepts, if `-d num` is the
last `-d` flag, no `-ser` flag comes after it, and the number `num` starts with fits an
`int32`, then `gopt.log_decimate` equals that number, whatever the other flags are. -/
theorem log_decimate_last_d (M : Int) (fopen_ok : String → Bool) (prog : String)
    (pre post : List Token) (num : String) (o : Options)
    (hquiet : ∀ t ∈ post, t ≠ Token.ser ∧ ∀ m, t ≠ Token.d m)
    (hfit : digitsValue num.data 0 < 2 ^ 31)
    (hacc : Parse_Arguments M fopen_ok (prog :: render (pre ++ Token.d num :: post))
      = .returned o) :
    o.log_decimate = (digitsValue num.data 0 : Int) := by
  obtain ⟨_, ts, hts, hr, ho⟩ :=
    Parse_Arguments_returns_only_if_wellFormed M fopen_ok _ o hacc
  have hr2 : render (pre ++ Token.d num :: post) = render ts := hr
  have huniq : ∀ (a b : List Token), (∀ t ∈ b, t.valid = true) → render a = render b →
      a = b := by
    intro a
    induction a with
    | nil =>
      intro b _ hab
      cases b with
      | nil => rfl
      | cons t b =>
        exfalso
        exact text_ne_nil t (List.append_eq_nil.mp hab.symm).1
    | cons t a ih =>
      intro b hb hab
      cases b with
      | nil =>
        exfalso
        exact text_ne_nil t (List.append_eq_nil.mp hab).1
      | cons t2 b =>
        obtain ⟨h1, h2⟩ := text_append_inj t t2 (render a) (render b) hab
        rw [h1, ih b (fun x hx => hb x (List.mem_cons_of_mem _ hx)) h2]
  have hts2 : pre ++ Token.d num :: post = ts := huniq _ _ hts hr2
  have hvalid : (Token.d num).valid = true := hts _ (by rw [← hts2]; simp)
  rw [ho, ← hts2, effects_append]
  show (effects post ((Token.d num).effect _)).log_decimate = _
  rw [effects_log_decimate post hquiet]
  exact atoi_eq_digitsValue num hvalid hfit

/-- The amended C5 on `gps-sdr -v -d 25 -l -gui`: the command line is accepted, no
`-ser` and no `-d` follows the `-d 25`, and `log_decimate` ends as 25. -/
theorem log_decimate_last_d_witness :
    Parse_Arguments 7000 (fun _ => true) ["gps-sdr", "-v", "-d", "25", "-l", "-gui"]
      = .returned (effects [Token.v, Token.d "25", Token.l, Token.gui] (defaultOptions 7000)) ∧
    digitsValue "25".data 0 < 2 ^ 31 ∧
    (effects [Token.v, Token.d "25", Token.l, Token.gui] (defaultOptions 7000)).log_decimate
      = 25 :=
  ⟨by decide, by decide,
    (log_decimate_last_d 7000 (fun _ => true) "gps-sdr" [Token.v] [Token.l, Token.gui] "25"
      (effects [Token.v, Token.d "25", Token.l, Token.gui] (defaultOptions 7000))
      (by simp) (by decide) (by decide)).trans (by decide)⟩

/-- An operand of `-d` beyond the `int32` range is not stored as such: with the
conversion of the GNU C library, `-d 4294967301` leaves `log_decimate` at 5. -/
theorem log_decimate_out_of_range :
    Parse_Arguments 7000 (fun _ => true) ["gps-sdr", "-d", "4294967301"]
      = .returned (effects [Token.d "4294967301"] (defaultOptions 7000)) ∧
    (effects [Token.d "4294967301"] (defaultOptions 7000)).log_decimate = 5 := by
  constructor <;> decide

/-- A `-ser` flag after which no `-d` and no further `-ser` comes leaves `log_decimate`
at 10, whatever `-d` flags came before it. -/
theorem log_decimate_last_ser (M : Int) (fopen_ok : String → Bool) (prog : String)
    (pre post : List Token) (o : Options)
    (hquiet : ∀ t ∈ post, t ≠ Token.ser ∧ ∀ m, t ≠ Token.d m)
    (hpre : ∀ t ∈ pre, t.valid = true) (hpost : ∀ t ∈ post, t.valid = true)
    (hacc : Parse_Arguments M fopen_ok (prog :: render (pre ++ Token.ser :: post))
      = .returned o) :
    o.log_decimate = 10 := by
  have h1 := Parse_Arguments_returned M fopen_ok _ o hacc
  have hall : ∀ t ∈ pre ++ Token.ser :: post, t.valid = true := by
    intro t ht
    rcases List.mem_append.mp ht with h | h
    · exact hpre t h
    · rcases List.mem_cons.mp h with rfl | h
      · rfl
      · exact hpost t h
  have h2 : ∀ (ts : List Token), (∀ t ∈ ts, t.valid = true) → ∀ g,
      argLoop (render ts) g = .returned (effects ts g) := by
    intro ts
    induction ts with
    | nil => intro _ g; rfl
    | cons t ts ih =>
      intro hts g
      show argLoop (t.text ++ render ts) g = _
      rw [argLoop_text t (hts t (List.mem_cons_self _ _))]
      exact ih (fun x hx => hts x (List.mem_cons_of_mem _ hx)) _
  have h3 : argLoop (render (pre ++ Token.ser :: post)) (defaultOptions M) = .returned o := h1
  rw [h2 _ hall] at h3
  rw [← Outcome.returned.inj h3, effects_append]
  show (effects post (Token.ser.effect _)).log_decimate = _
  rw [effects_log_decimate post hquiet]
  rfl

end GpsSdr
